import Mathlib

/-!
Verification of the MSF container engine in src/msf.cpp.

The write path (writePage, writeStream, MsfFile::write) is embedded as pure
state-passing functions over WState; bytes are Nat values, the output file is
a list of pages, each page a list of bytes.  The read path is embedded for the
header-validation prefix of the MsfFile constructor and for the directory
decoding loop.  Machine integers are Nat with explicit reduction modulo 2^32
where 32-bit overflow matters.  Out-of-bounds vector reads in the decoder are
made observable as a distinguished outcome.
-/

set_option maxRecDepth 100000

/-- Embeds kPageSize (msf.cpp line 37). -/
def kPageSize : Nat := 4096

/-- Embeds kBlankPage (msf.cpp line 40): a page of kPageSize zero bytes. -/
def kBlankPage : List Nat := List.replicate kPageSize 0

/-- Embeds isFpmPage (msf.cpp lines 88-95): switch on page AND (pageSize - 1)
with cases 1 and 2 returning true, default false.  The default argument for
pageSize is kPageSize = 4096 as in the source. -/
def isFpmPage (page : Nat) (pageSize : Nat := 4096) : Bool :=
  match page &&& (pageSize - 1) with
  | 1 => true
  | 2 => true
  | _ => false

/-- Writer state: the pages appended to the output file so far, the vector the
caller passed as pagesWritten, the running pageCount counter, and a ghost
record of the cursor values at which the FPM pre-emission check of
writeStream (msf.cpp line 137) was evaluated. -/
structure WState where
  file : List (List Nat)
  pagesWritten : List Nat
  pageCount : Nat
  checks : List Nat

/-- Embeds writePage (msf.cpp lines 102-111).  The source ignores its data and
pageSize arguments: it always calls fwrite on kBlankPage for kPageSize bytes,
then appends the current pageCount to pagesWritten and increments it. -/
def writePage (data : List Nat) (s : WState) : WState :=
  ⟨s.file ++ [kBlankPage], s.pagesWritten ++ [s.pageCount], s.pageCount + 1, s.checks⟩

/-- Embeds the buffer produced by one loop iteration of writeStream
(msf.cpp lines 129-135): the bytes read, zero-padded to a full page. -/
def padPage (chunk : List Nat) : List Nat :=
  chunk ++ List.replicate (kPageSize - chunk.length) 0

/-- Models the read loop condition of writeStream: stream reads return
min(kPageSize, remaining) bytes and 0 exactly at end of stream, so the data
splits into chunks of at most kPageSize bytes.  Fuel is the byte length, which
bounds the number of chunks.  Modelled from the spec: the MsfStream read
contract (spec section 4.2) backing msf.cpp line 129; the stream classes are
not under src. -/
def toChunksAux : Nat → List Nat → List (List Nat)
  | 0, _ => []
  | _, [] => []
  | fuel + 1, b :: bs =>
      ((b :: bs).take kPageSize) :: toChunksAux fuel ((b :: bs).drop kPageSize)

/-- Splits stream data into the successive page-sized read results. -/
def toChunks (data : List Nat) : List (List Nat) :=
  toChunksAux data.length data

/-- Embeds the while loop of writeStream (msf.cpp lines 129-143).  Each
iteration records the FPM check on the current pageCount; when the check is
true it calls writePage twice on kBlankPage, then calls writePage on the
padded data buffer. -/
def writeChunks : List (List Nat) → WState → WState
  | [], s => s
  | buf :: rest, s =>
      let s1 : WState := ⟨s.file, s.pagesWritten, s.pageCount, s.checks ++ [s.pageCount]⟩
      let s2 : WState :=
        if isFpmPage s1.pageCount then
          writePage kBlankPage (writePage kBlankPage s1)
        else s1
      writeChunks rest (writePage (padPage buf) s2)

/-- Embeds writeStream (msf.cpp lines 119-144): a null stream or a stream of
length 0 returns immediately; otherwise the read loop runs over the chunks. -/
def writeStream (stream : Option (List Nat)) (s : WState) : WState :=
  match stream with
  | none => s
  | some data => if data.length = 0 then s else writeChunks (toChunks data) s

/-- Serialization of a vector of 32-bit values to little-endian bytes.
Modelled from the spec: all integers are little-endian 32-bit (spec
section 6); used for the in-memory buffer handed to MsfReadOnlyStream. -/
def u32leBytes (ws : List Nat) : List Nat :=
  List.flatten (ws.map (fun w => [w % 256, w / 256 % 256, w / 65536 % 256, w / 16777216 % 256]))

/-- Result of MsfFile::write: the emitted file pages, the streamTable vector,
the streamTablePages vector, the final pageCount, and the ghost record of FPM
pre-emission checks. -/
structure WriteResult where
  file : List (List Nat)
  streamTable : List Nat
  streamTablePages : List Nat
  pageCount : Nat
  checks : List Nat

/-- Embeds the per-stream phase of MsfFile::write (msf.cpp lines 253-277):
4 blank preamble pages, pageCount starting at 4, the streamTable vector
seeded with the stream count and per-stream lengths (0 for a null entry), and
writeStream folded over the streams with streamTable as the pagesWritten
vector. -/
def msfWriteStreams (streams : List (Option (List Nat))) : WState :=
  let t0 : List Nat :=
    streams.length :: streams.map (fun str => match str with | none => 0 | some d => d.length)
  List.foldl (fun s str => writeStream str s) ⟨List.replicate 4 kBlankPage, t0, 4, []⟩ streams

/-- Embeds MsfFile::write (msf.cpp lines 247-288).  After the per-stream
phase, the source constructs MsfReadOnlyStream from the freshly created empty
streamTablePages vector, with byte length streamTablePages.size times 4, and
calls writeStream on it with streamTablePages as the pagesWritten vector. -/
def MsfFile.write (streams : List (Option (List Nat))) : WriteResult :=
  let s1 := msfWriteStreams streams
  let s2 := writeStream (some (u32leBytes [])) ⟨s1.file, [], s1.pageCount, s1.checks⟩
  ⟨s2.file, s1.pagesWritten, s2.pagesWritten, s2.pageCount, s2.checks⟩

/-- Embeds MsfFile::streamCount (msf.cpp lines 243-245). -/
def MsfFile.streamCount (streams : List (Option (List Nat))) : Nat :=
  streams.length

/-- Embeds MsfFile::getStream (msf.cpp lines 231-237): the stored entry when
the index is in range, nullptr otherwise. -/
def MsfFile.getStream (streams : List (Option (List Nat))) (index : Nat) : Option (List Nat) :=
  if h : index < streams.length then streams.get ⟨index, h⟩ else none

/-- Modelled from the spec: the magic byte string kMsfHeaderMagic of msf.h,
which is not under src; the concrete value is the standard MSF 7.00 signature
(spec sections 3 and 6 fix a constant magic byte string). -/
def msfMagic : List Nat :=
  [77, 105, 99, 114, 111, 115, 111, 102, 116, 32, 67, 47, 67, 43, 43, 32,
   77, 83, 70, 32, 55, 46, 48, 48, 13, 10, 26, 68, 83, 0, 0, 0]

/-- Reads a little-endian 32-bit field at a byte offset.  Modelled from the
spec: integers are little-endian 32-bit (spec section 6); the MSF_HEADER
layout lives in msf.h, which is not under src. -/
def leU32 (bytes : List Nat) (off : Nat) : Nat :=
  bytes.getD off 0 + 256 * bytes.getD (off + 1) 0 + 65536 * bytes.getD (off + 2) 0
    + 16777216 * bytes.getD (off + 3) 0

/-- Header record.  Modelled from the spec: MSF_HEADER of msf.h is not under
src; spec section 3 gives a fixed layout with a magic byte string, pageSize,
pageCount and the stream table locator, all little-endian 32-bit fields after
the 32 magic bytes, for a total of 52 bytes. -/
structure MsfHeader where
  magic : List Nat
  pageSize : Nat
  freePageMap : Nat
  pageCount : Nat
  streamTableSize : Nat
  streamTableIndex : Nat
deriving DecidableEq

/-- Embeds the validation prefix of the MsfFile constructor (msf.cpp lines
148-162): the fread of the 52-byte header fails on a short file; then the
memcmp of the magic field; then the comparison of pageSize times pageCount
(an unsigned 32-bit multiply, hence reduced modulo 2^32) against the file
size.  An error carries no container. -/
def msfOpenHeaderChecks (bytes : List Nat) : Except String MsfHeader :=
  if bytes.length < 52 then Except.error "Missing MSF header"
  else if bytes.take 32 ≠ msfMagic then Except.error "Invalid MSF header"
  else if (leU32 bytes 32 * leU32 bytes 40) % 4294967296 ≠ bytes.length then
    Except.error "Invalid MSF file length"
  else
    Except.ok
      ⟨bytes.take 32, leU32 bytes 32, leU32 bytes 36, leU32 bytes 40,
       leU32 bytes 44, leU32 bytes 48⟩

/-- Embeds the helper pageCount of msf.h, which is not under src.  Modelled
from the spec: the length of a stream in pages is ceil(byteLength / pageSize)
(spec section 3). -/
def pageCountOf (pageSize length : Nat) : Nat :=
  (length + pageSize - 1) / pageSize

/-- Reads n consecutive entries of the stream table vector starting at a
given index, or none when any of them lies past the end.  Models the page
list entries captured when constructing MsfFileStream from streamPages plus
pagesIndex (msf.cpp lines 216-217); the MsfFileStream class is not under src,
its capture of ceil(size / pageSize) entries is modelled from the spec
(section 4.1 step 8). -/
def readSlice (tbl : List Nat) (start n : Nat) : Option (List Nat) :=
  if start + n ≤ tbl.length then some ((tbl.drop start).take n) else none

/-- Outcome of decoding the stream table: a decoded list of streams as pairs
of size and page list, a thrown InvalidMsf with its message, or an unchecked
vector read past the end of the buffer. -/
inductive DirOutcome where
  | ok (streams : List (Nat × List Nat))
  | invalid (msg : String)
  | oob

/-- Embeds the directory decoding loop of the MsfFile constructor (msf.cpp
lines 206-220).  Iteration i first checks pagesIndex against the vector size
and throws InvalidMsf when it is reached; then reads streamSizes[i], which is
streamTable[1 + i], unchecked; then captures the page list entries starting
at streamTable[1 + streamCount + pagesIndex]; then advances pagesIndex by
pageCount(pageSize, size).  Unchecked reads past the end are the oob
outcome. -/
def decodeLoop (pageSize : Nat) (tbl : List Nat) (streamCount : Nat) :
    Nat → Nat → Nat → List (Nat × List Nat) → DirOutcome
  | 0, _, _, acc => DirOutcome.ok acc
  | n + 1, i, pagesIndex, acc =>
      if tbl.length ≤ pagesIndex then
        DirOutcome.invalid "invalid stream count in stream table"
      else
        match tbl.get? (1 + i) with
        | none => DirOutcome.oob
        | some size =>
            match readSlice tbl (1 + streamCount + pagesIndex) (pageCountOf pageSize size) with
            | none => DirOutcome.oob
            | some pages =>
                decodeLoop pageSize tbl streamCount n (i + 1)
                  (pagesIndex + pageCountOf pageSize size) (acc ++ [(size, pages)])

/-- Embeds the stream table decoding of the MsfFile constructor (msf.cpp
lines 195-220): streamCount is the unchecked read streamTable[0], then the
loop runs for streamCount iterations. -/
def decodeStreamTable (pageSize : Nat) (tbl : List Nat) : DirOutcome :=
  match tbl.get? 0 with
  | none => DirOutcome.oob
  | some streamCount => decodeLoop pageSize tbl streamCount streamCount 0 0 []

/-- Derived description of the page ordinals recorded by n successive
one-page loop iterations starting at a given cursor, used to evaluate the
write loop on large containers without materializing page contents. -/
def pagesIter : Nat → Nat → List Nat
  | 0, _ => []
  | n + 1, c =>
      if isFpmPage c then c :: (c + 1) :: (c + 2) :: pagesIter n (c + 3)
      else c :: pagesIter n (c + 1)

/-- Derived description of the cursor after n successive one-page loop
iterations starting at a given cursor. -/
def cursorIter : Nat → Nat → Nat
  | 0, c => c
  | n + 1, c =>
      if isFpmPage c then cursorIter n (c + 3) else cursorIter n (c + 1)

/-! Helper lemmas about isFpmPage. -/

/-- The switch in isFpmPage returns true exactly on masked values 1 and 2. -/
theorem isFpmPage_true_iff (p ps : Nat) :
    isFpmPage p ps = true ↔ (p &&& (ps - 1) = 1 ∨ p &&& (ps - 1) = 2) := by
  unfold isFpmPage
  rcases h : p &&& (ps - 1) with _ | _ | _ | k <;> simp

/-- For a power-of-two page size, the mask computes the remainder. -/
theorem isFpmPage_mod_iff (p k : Nat) :
    isFpmPage p (2 ^ k) = true ↔ (p % 2 ^ k = 1 ∨ p % 2 ^ k = 2) := by
  rw [isFpmPage_true_iff, Nat.and_pow_two_sub_one_eq_mod]

/-- Specialization to the default page size 4096. -/
theorem isFpmPage_4096_iff (p : Nat) :
    isFpmPage p 4096 = true ↔ (p % 4096 = 1 ∨ p % 4096 = 2) := by
  have h := isFpmPage_mod_iff p 12
  norm_num at h
  exact h

/-! Helper lemmas about the write loop. -/

/-- One iteration of the writeStream loop with both branches flattened: when
the FPM check fires, three pages are emitted and three ordinals recorded,
otherwise one page and one ordinal; the check value is recorded either way. -/
theorem writeChunks_cons (buf : List Nat) (rest : List (List Nat)) (s : WState) :
    writeChunks (buf :: rest) s =
      writeChunks rest
        (if isFpmPage s.pageCount then
          ⟨s.file ++ [kBlankPage, kBlankPage, kBlankPage],
           s.pagesWritten ++ [s.pageCount, s.pageCount + 1, s.pageCount + 2],
           s.pageCount + 3, s.checks ++ [s.pageCount]⟩
        else
          ⟨s.file ++ [kBlankPage], s.pagesWritten ++ [s.pageCount],
           s.pageCount + 1, s.checks ++ [s.pageCount]⟩) := by
  show writeChunks rest _ = writeChunks rest _
  congr 1
  by_cases hf : isFpmPage s.pageCount <;> simp [writePage, hf]

/-- C3: in the final step of MsfFile::write the source constructs the
stream-table stream from the just-created empty streamTablePages vector, of
byte length 0, so writeStream returns immediately: for every container no
directory page is emitted, the recorded page list of the stream table stays
empty, and file contents and page count are unchanged from the per-stream
phase.  This refutes the claim that the completed directory buffer is
serialized as one more stream. -/
theorem directory_stream_never_emitted (streams : List (Option (List Nat))) :
    (MsfFile.write streams).streamTablePages = [] ∧
    (MsfFile.write streams).file = (msfWriteStreams streams).file ∧
    (MsfFile.write streams).pageCount = (msfWriteStreams streams).pageCount :=
  ⟨rfl, rfl, rfl⟩

/-- C6: on the stream table buffer [2, 0] the declared stream count 2 forces
the size reads streamTable[1] and streamTable[2], the latter past the end of
the 2-entry buffer, yet the guard pagesIndex >= streamTable.size() never
fires because both declared sizes contribute 0 pages: the decoder performs an
out-of-bounds read instead of throwing InvalidMsf. -/
theorem decode_oob_on_bogus_count :
    decodeStreamTable 4096 [2, 0] = DirOutcome.oob :=
  rfl

/-- C4: for a power-of-two page size, isFpmPage returns true exactly when the
page ordinal modulo the page size is 1 or 2. -/
theorem isFpmPage_spec (p ps k : Nat) (hps : ps = 2 ^ k) :
    isFpmPage p ps = true ↔ (p % ps = 1 ∨ p % ps = 2) := by
  subst hps
  exact isFpmPage_mod_iff p k

/-- Witness for C4 at the default page size 4096 = 2 ^ 12 and page 4097. -/
theorem isFpmPage_spec_witness :
    4096 = 2 ^ 12 ∧ isFpmPage 4097 4096 = true :=
  ⟨by norm_num, (isFpmPage_spec 4097 4096 12 (by norm_num)).mpr (Or.inl (by norm_num))⟩

/-- C10: getStream returns the stored entry for every index below
streamCount and none for every index at or above it. -/
theorem getStream_spec (streams : List (Option (List Nat))) (index : Nat) :
    (∀ h : index < MsfFile.streamCount streams,
        MsfFile.getStream streams index = streams.get ⟨index, h⟩) ∧
    (MsfFile.streamCount streams ≤ index → MsfFile.getStream streams index = none) := by
  constructor
  · intro h
    exact dif_pos h
  · intro h
    exact dif_neg (Nat.not_lt.mpr h)

/-- Witness for C10 on a concrete two-entry container, at an index in range
and an index out of range. -/
theorem getStream_spec_witness :
    MsfFile.getStream [some [7], none] 0 = some [7] ∧
    MsfFile.getStream [some [7], none] 5 = none :=
  ⟨((getStream_spec [some [7], none] 0).1 (by decide)).trans rfl,
   (getStream_spec [some [7], none] 5).2 (by decide)⟩

/-- The writeStream loop only appends to the pagesWritten vector. -/
theorem writeChunks_pw_append (bufs : List (List Nat)) :
    ∀ s : WState, ∃ t, (writeChunks bufs s).pagesWritten = s.pagesWritten ++ t := by
  induction bufs with
  | nil => intro s; exact ⟨[], by simp [writeChunks]⟩
  | cons buf rest ih =>
      intro s
      rw [writeChunks_cons]
      by_cases hf : isFpmPage s.pageCount = true
      · obtain ⟨t, ht⟩ := ih ⟨s.file ++ [kBlankPage, kBlankPage, kBlankPage],
          s.pagesWritten ++ [s.pageCount, s.pageCount + 1, s.pageCount + 2],
          s.pageCount + 3, s.checks ++ [s.pageCount]⟩
        refine ⟨[s.pageCount, s.pageCount + 1, s.pageCount + 2] ++ t, ?_⟩
        rw [if_pos hf, ht]
        simp
      · obtain ⟨t, ht⟩ := ih ⟨s.file ++ [kBlankPage], s.pagesWritten ++ [s.pageCount],
          s.pageCount + 1, s.checks ++ [s.pageCount]⟩
        refine ⟨[s.pageCount] ++ t, ?_⟩
        rw [if_neg hf, ht]
        simp

/-- writeStream only appends to the pagesWritten vector. -/
theorem writeStream_pw_append (str : Option (List Nat)) (s : WState) :
    ∃ t, (writeStream str s).pagesWritten = s.pagesWritten ++ t := by
  cases str with
  | none => exact ⟨[], by simp [writeStream]⟩
  | some d =>
      simp only [writeStream]
      split
      · exact ⟨[], by simp⟩
      · exact writeChunks_pw_append _ s

/-- The per-stream write phase only appends to the pagesWritten vector. -/
theorem foldl_pw_append (streams : List (Option (List Nat))) :
    ∀ s : WState,
      ∃ t, (List.foldl (fun u str => writeStream str u) s streams).pagesWritten =
        s.pagesWritten ++ t := by
  induction streams with
  | nil => intro s; exact ⟨[], by simp⟩
  | cons str rest ih =>
      intro s
      obtain ⟨t1, h1⟩ := writeStream_pw_append str s
      obtain ⟨t2, h2⟩ := ih (writeStream str s)
      refine ⟨t1 ++ t2, ?_⟩
      rw [List.foldl_cons, h2, h1, List.append_assoc]

/-- C7: the directory records the stream count followed by each declared
stream length in index order, 0 for a null entry and 0 for a zero-length
stream, and both a null stream and a zero-length stream are skipped by the
page-emission phase, leaving the writer state untouched. -/
theorem null_and_empty_streams_skipped :
    (∀ streams : List (Option (List Nat)),
        (MsfFile.write streams).streamTable.take (streams.length + 1) =
          streams.length ::
            streams.map (fun str => match str with | none => 0 | some d => d.length)) ∧
    (∀ s : WState, writeStream none s = s) ∧
    (∀ s : WState, writeStream (some []) s = s) := by
  refine ⟨?_, fun s => rfl, fun s => rfl⟩
  intro streams
  obtain ⟨t, ht⟩ := foldl_pw_append streams
    ⟨List.replicate 4 kBlankPage,
     streams.length :: streams.map (fun str => match str with | none => 0 | some d => d.length),
     4, []⟩
  have hw : (MsfFile.write streams).streamTable =
      (streams.length ::
        streams.map (fun str => match str with | none => 0 | some d => d.length)) ++ t := ht
  rw [hw]
  have hlen : (streams.length ::
      streams.map (fun str => match str with | none => 0 | some d => d.length)).length =
      streams.length + 1 := by simp
  rw [← hlen, List.take_left]

/-- Every page the writeStream loop appends to the file is the blank page. -/
theorem writeChunks_blank (bufs : List (List Nat)) :
    ∀ s : WState, (∀ p ∈ s.file, p = kBlankPage) →
      ∀ p ∈ (writeChunks bufs s).file, p = kBlankPage := by
  induction bufs with
  | nil => intro s h; exact h
  | cons buf rest ih =>
      intro s h
      rw [writeChunks_cons]
      by_cases hf : isFpmPage s.pageCount = true
      · rw [if_pos hf]
        apply ih
        intro p hp
        rcases List.mem_append.mp hp with h1 | h1
        · exact h p h1
        · simp only [List.mem_cons, List.not_mem_nil, or_false] at h1
          rcases h1 with h1 | h1 | h1 <;> exact h1
      · rw [if_neg hf]
        apply ih
        intro p hp
        rcases List.mem_append.mp hp with h1 | h1
        · exact h p h1
        · simp only [List.mem_singleton] at h1
          exact h1

/-- Every page writeStream appends to the file is the blank page. -/
theorem writeStream_blank (str : Option (List Nat)) (s : WState)
    (h : ∀ p ∈ s.file, p = kBlankPage) :
    ∀ p ∈ (writeStream str s).file, p = kBlankPage := by
  cases str with
  | none => exact h
  | some d =>
      simp only [writeStream]
      split
      · exact h
      · exact writeChunks_blank _ s h

/-- Every page the per-stream phase appends to the file is the blank page. -/
theorem foldl_blank (streams : List (Option (List Nat))) :
    ∀ s : WState, (∀ p ∈ s.file, p = kBlankPage) →
      ∀ p ∈ (List.foldl (fun u str => writeStream str u) s streams).file, p = kBlankPage := by
  induction streams with
  | nil => intro s h; exact h
  | cons str rest ih =>
      intro s h
      rw [List.foldl_cons]
      exact ih _ (writeStream_blank str s h)

/-- C9: every page emitted by MsfFile::write, for every input container, is
the all-zero blank page, because writePage always writes kBlankPage and
ignores its data argument. -/
theorem all_pages_blank (streams : List (Option (List Nat))) (p : List Nat)
    (hp : p ∈ (MsfFile.write streams).file) : p = List.replicate kPageSize 0 := by
  have h0 : ∀ q ∈ (List.replicate 4 kBlankPage : List (List Nat)), q = kBlankPage := by
    intro q hq
    exact List.eq_of_mem_replicate hq
  have h1 := foldl_blank streams
    ⟨List.replicate 4 kBlankPage,
     streams.length :: streams.map (fun str => match str with | none => 0 | some d => d.length),
     4, []⟩ h0
  have h2 : ∀ q ∈ (msfWriteStreams streams).file, q = kBlankPage := h1
  have h3 := writeStream_blank (some (u32leBytes []))
    ⟨(msfWriteStreams streams).file, [], (msfWriteStreams streams).pageCount,
     (msfWriteStreams streams).checks⟩ h2
  exact h3 p hp

/-- Witness for C9: the first page of the file written for a container with
one single-byte stream is blank. -/
theorem all_pages_blank_witness :
    (MsfFile.write [some [1]]).file.get ⟨0, by decide⟩ = List.replicate kPageSize 0 :=
  all_pages_blank [some [1]] _ (List.get_mem _ _ _)

/-- The writeStream loop preserves the invariant that the page cursor is
never congruent to 2 modulo 4096 at an FPM pre-emission check. -/
theorem writeChunks_check_inv (bufs : List (List Nat)) :
    ∀ s : WState, s.pageCount % 4096 ≠ 2 → (∀ c ∈ s.checks, c % 4096 ≠ 2) →
      ((writeChunks bufs s).pageCount % 4096 ≠ 2 ∧
        ∀ c ∈ (writeChunks bufs s).checks, c % 4096 ≠ 2) := by
  induction bufs with
  | nil => intro s h1 h2; exact ⟨h1, h2⟩
  | cons buf rest ih =>
      intro s h1 h2
      rw [writeChunks_cons]
      by_cases hf : isFpmPage s.pageCount = true
      · rw [if_pos hf]
        have hm : s.pageCount % 4096 = 1 := by
          rcases (isFpmPage_4096_iff s.pageCount).mp hf with h | h
          · exact h
          · exact absurd h h1
        apply ih
        · show (s.pageCount + 3) % 4096 ≠ 2
          omega
        · intro c hc
          rcases List.mem_append.mp hc with hc | hc
          · exact h2 c hc
          · simp only [List.mem_singleton] at hc
            omega
      · rw [if_neg hf]
        have hm : s.pageCount % 4096 ≠ 1 := by
          intro h
          exact hf ((isFpmPage_4096_iff s.pageCount).mpr (Or.inl h))
        apply ih
        · show (s.pageCount + 1) % 4096 ≠ 2
          omega
        · intro c hc
          rcases List.mem_append.mp hc with hc | hc
          · exact h2 c hc
          · simp only [List.mem_singleton] at hc
            omega

/-- writeStream preserves the cursor invariant. -/
theorem writeStream_check_inv (str : Option (List Nat)) (s : WState)
    (h1 : s.pageCount % 4096 ≠ 2) (h2 : ∀ c ∈ s.checks, c % 4096 ≠ 2) :
    (writeStream str s).pageCount % 4096 ≠ 2 ∧
      ∀ c ∈ (writeStream str s).checks, c % 4096 ≠ 2 := by
  cases str with
  | none => exact ⟨h1, h2⟩
  | some d =>
      simp only [writeStream]
      split
      · exact ⟨h1, h2⟩
      · exact writeChunks_check_inv _ s h1 h2

/-- The per-stream phase preserves the cursor invariant. -/
theorem foldl_check_inv (streams : List (Option (List Nat))) :
    ∀ s : WState, s.pageCount % 4096 ≠ 2 → (∀ c ∈ s.checks, c % 4096 ≠ 2) →
      ((List.foldl (fun u str => writeStream str u) s streams).pageCount % 4096 ≠ 2 ∧
        ∀ c ∈ (List.foldl (fun u str => writeStream str u) s streams).checks,
          c % 4096 ≠ 2) := by
  induction streams with
  | nil => intro s h1 h2; exact ⟨h1, h2⟩
  | cons str rest ih =>
      intro s h1 h2
      rw [List.foldl_cons]
      obtain ⟨g1, g2⟩ := writeStream_check_inv str s h1 h2
      exact ih _ g1 g2

/-- C8: across every execution of MsfFile::write, the page cursor is never
congruent to 2 modulo the page size at an FPM pre-emission check, so a
reservation always fires at a cursor congruent to 1 and the two blank pages
it emits land on the adjacent reserved ordinals. -/
theorem fpm_checks_never_mod_two (streams : List (Option (List Nat))) (c : Nat)
    (hc : c ∈ (MsfFile.write streams).checks) :
    c % 4096 ≠ 2 ∧ (isFpmPage c = true → c % 4096 = 1) := by
  have h := foldl_check_inv streams
    ⟨List.replicate 4 kBlankPage,
     streams.length :: streams.map (fun str => match str with | none => 0 | some d => d.length),
     4, []⟩ (by norm_num) (by simp)
  have hmem : c ∈ (List.foldl (fun u str => writeStream str u)
      ⟨List.replicate 4 kBlankPage,
       streams.length :: streams.map (fun str => match str with | none => 0 | some d => d.length),
       4, []⟩ streams).checks := hc
  have hne := h.2 c hmem
  refine ⟨hne, ?_⟩
  intro hf
  rcases (isFpmPage_4096_iff c).mp hf with h | h
  · exact h
  · exact absurd h hne

/-- Witness for C8: the single FPM check of writing one single-byte stream
happens at cursor 4. -/
theorem fpm_checks_never_mod_two_witness :
    (4 : Nat) % 4096 ≠ 2 ∧ (isFpmPage 4 = true → (4 : Nat) % 4096 = 1) :=
  fpm_checks_never_mod_two [some [1]] 4 (by decide)

/-- C5: the MsfFile constructor validates in strict order with distinct
failure causes: a short header read, then a magic mismatch, then a file-size
mismatch, each returning an error that carries no container. -/
theorem headerChecks_order (bytes : List Nat) :
    (bytes.length < 52 → msfOpenHeaderChecks bytes = Except.error "Missing MSF header") ∧
    (¬ bytes.length < 52 → bytes.take 32 ≠ msfMagic →
        msfOpenHeaderChecks bytes = Except.error "Invalid MSF header") ∧
    (¬ bytes.length < 52 → bytes.take 32 = msfMagic →
        (leU32 bytes 32 * leU32 bytes 40) % 4294967296 ≠ bytes.length →
        msfOpenHeaderChecks bytes = Except.error "Invalid MSF file length") ∧
    ("Missing MSF header" ≠ "Invalid MSF header" ∧
      "Missing MSF header" ≠ "Invalid MSF file length" ∧
      "Invalid MSF header" ≠ "Invalid MSF file length") := by
  refine ⟨?_, ?_, ?_, by decide⟩
  · intro h
    simp only [msfOpenHeaderChecks, if_pos h]
  · intro h hm
    simp only [msfOpenHeaderChecks, if_neg h, if_pos hm]
  · intro h hm hsz
    simp only [msfOpenHeaderChecks, if_neg h]
    rw [if_neg (by simp [hm]), if_pos hsz]

/-- Witness for C5: a file too short for the header, an all-zero 52-byte file
with a bad magic, and a well-formed header whose declared size 4096 times 7
disagrees with the actual 52-byte length. -/
theorem headerChecks_order_witness :
    msfOpenHeaderChecks [] = Except.error "Missing MSF header" ∧
    msfOpenHeaderChecks (List.replicate 52 0) = Except.error "Invalid MSF header" ∧
    msfOpenHeaderChecks
        (msfMagic ++ [0, 16, 0, 0, 0, 0, 0, 0, 7, 0, 0, 0, 0, 0, 0, 0, 0, 0, 0, 0]) =
      Except.error "Invalid MSF file length" :=
  ⟨(headerChecks_order []).1 (by decide),
   (headerChecks_order _).2.1 (by decide) (by decide),
   (headerChecks_order _).2.2.1 (by decide) (by decide) (by decide)⟩

/-- Page ordinals recorded by writeStream for a one-byte stream. -/
theorem writeStream_one_pw (b : Nat) (s : WState) :
    (writeStream (some [b]) s).pagesWritten =
      s.pagesWritten ++
        (if isFpmPage s.pageCount then [s.pageCount, s.pageCount + 1, s.pageCount + 2]
         else [s.pageCount]) := by
  show (writeChunks (toChunks [b]) s).pagesWritten = _
  rw [show toChunks [b] = [[b]] from rfl, writeChunks_cons]
  by_cases hf : isFpmPage s.pageCount = true
  · rw [if_pos hf, if_pos hf]
    rfl
  · rw [if_neg hf, if_neg hf]
    rfl

/-- Cursor advance of writeStream for a one-byte stream. -/
theorem writeStream_one_pc (b : Nat) (s : WState) :
    (writeStream (some [b]) s).pageCount =
      (if isFpmPage s.pageCount then s.pageCount + 3 else s.pageCount + 1) := by
  show (writeChunks (toChunks [b]) s).pageCount = _
  rw [show toChunks [b] = [[b]] from rfl, writeChunks_cons]
  by_cases hf : isFpmPage s.pageCount = true
  · rw [if_pos hf, if_pos hf]
    rfl
  · rw [if_neg hf, if_neg hf]
    rfl

/-- Folding writeStream over n one-byte streams records pagesIter and leaves
the cursor at cursorIter. -/
theorem foldl_one (n : Nat) : ∀ s : WState,
    (List.foldl (fun u str => writeStream str u) s
        (List.replicate n (some [0]))).pagesWritten =
      s.pagesWritten ++ pagesIter n s.pageCount ∧
    (List.foldl (fun u str => writeStream str u) s
        (List.replicate n (some [0]))).pageCount =
      cursorIter n s.pageCount := by
  induction n with
  | zero => intro s; simp [pagesIter, cursorIter]
  | succ n ih =>
      intro s
      rw [List.replicate_succ, List.foldl_cons]
      obtain ⟨h1, h2⟩ := ih (writeStream (some [0]) s)
      constructor
      · rw [h1, writeStream_one_pw, writeStream_one_pc]
        simp only [pagesIter]
        by_cases hf : isFpmPage s.pageCount = true
        · rw [if_pos hf, if_pos hf, if_pos hf]
          simp
        · rw [if_neg hf, if_neg hf, if_neg hf]
          simp
      · rw [h2, writeStream_one_pc]
        simp only [cursorIter]
        by_cases hf : isFpmPage s.pageCount = true
        · rw [if_pos hf, if_pos hf]
        · rw [if_neg hf, if_neg hf]

/-- The stream table produced by writing n one-byte streams is the count and
n size entries followed by the recorded page ordinals pagesIter n 4. -/
theorem write_streamTable_one_byte (n : Nat) :
    (MsfFile.write (List.replicate n (some [0]))).streamTable =
      (n :: List.replicate n 1) ++ pagesIter n 4 := by
  have e1 : (MsfFile.write (List.replicate n (some ([0] : List Nat)))).streamTable =
      (List.foldl (fun u str => writeStream str u)
        ⟨List.replicate 4 kBlankPage,
         (List.replicate n (some ([0] : List Nat))).length ::
           (List.replicate n (some ([0] : List Nat))).map
             (fun str => match str with | none => 0 | some d => d.length),
         4, []⟩ (List.replicate n (some ([0] : List Nat)))).pagesWritten := rfl
  rw [e1, (foldl_one n _).1]
  simp [List.map_replicate]

/-- C2: writing a container of 4094 one-byte streams drives the page cursor
from 4 to 4097, a reserved FPM ordinal; the two blank pages emitted for the
reserved pair are recorded in the growing page list, so the reserved
ordinals 4097 and 4098 appear in the stream table after the 4095 size
entries, refuting the claim that only real data page ordinals are ever
appended. -/
theorem blank_fpm_ordinals_in_page_list :
    4097 ∈ (MsfFile.write (List.replicate 4094 (some [0]))).streamTable ∧
    4098 ∈ (MsfFile.write (List.replicate 4094 (some [0]))).streamTable ∧
    isFpmPage 4097 = true ∧ isFpmPage 4098 = true ∧
    (MsfFile.write (List.replicate 4094 (some [0]))).streamTable.take 4095 =
      4094 :: List.replicate 4094 1 := by
  rw [write_streamTable_one_byte]
  refine ⟨?_, ?_, by decide, by decide, ?_⟩
  · exact List.mem_append.mpr (Or.inr (by decide))
  · exact List.mem_append.mpr (Or.inr (by decide))
  · have hl : (4094 :: List.replicate 4094 1 : List Nat).length = 4095 := by
      rw [List.length_cons, List.length_replicate]
    rw [← hl, List.take_left]

/-- Flattening n copies of a zero page gives one zero run. -/
theorem flatten_replicate_replicate (n m : Nat) :
    List.flatten (List.replicate n (List.replicate m (0 : Nat))) = List.replicate (n * m) 0 := by
  induction n with
  | zero => simp
  | succ n ih =>
      rw [List.replicate_succ, List.flatten_cons, ih, ← List.replicate_add]
      congr 1
      ring

/-- C1: writing the singleton container whose stream holds the single byte 1
produces five pages that are entirely zero, and re-opening the flattened
output fails the magic check of the constructor, because writePage only ever
writes blank pages and the header page is never rewritten: the round trip
cannot return the original stream contents. -/
theorem roundtrip_fails_on_one_byte_stream :
    (MsfFile.write [some [1]]).file = List.replicate 5 (List.replicate kPageSize 0) ∧
    msfOpenHeaderChecks (List.flatten (MsfFile.write [some [1]]).file) =
      Except.error "Invalid MSF header" := by
  have h1 : (MsfFile.write [some [1]]).file = List.replicate 5 kBlankPage := by
    show (writeChunks (toChunks [1]) ⟨List.replicate 4 kBlankPage, [1, 1], 4, []⟩).file =
      List.replicate 5 kBlankPage
    rw [show toChunks [1] = [[1]] from rfl, writeChunks_cons, if_neg (by decide)]
    show List.replicate 4 kBlankPage ++ [kBlankPage] = List.replicate 5 kBlankPage
    rw [← List.replicate_succ']
  have h2 : List.flatten (List.replicate 5 kBlankPage) = List.replicate 20480 0 := by
    rw [show kBlankPage = List.replicate kPageSize 0 from rfl, flatten_replicate_replicate,
      show 5 * kPageSize = 20480 from by norm_num [kPageSize]]
  have h3 : ¬ (List.replicate 20480 (0 : Nat)).length < 52 := by
    rw [List.length_replicate]
    norm_num
  have h4 : (List.replicate 20480 (0 : Nat)).take 32 ≠ msfMagic := by decide
  refine ⟨h1, ?_⟩
  rw [h1, h2]
  simp only [msfOpenHeaderChecks]
  rw [if_neg h3, if_pos h4]
